import Mathlib

/-!
Verification of the AFL-QEMU fuzzing shim (`afl-qemu-cpu-inl.h`): the
shared-bitmap coverage logger (`afl_maybe_log`), the setup of the
instrumentation sampling rate (`afl_setup`), the fork-server protocol loop
(`afl_forkserver`), and the translation-cache relay receiver
(`afl_wait_tsl`).  Pure computations are embedded directly; the
fork-server's system calls are embedded as a trace semantics: the
environment supplies the result of each `read`/`write`/`fork`/`waitpid`
call and the model returns the sequence of protocol events performed
together with the outcome (return, `exit(code)`, or loop continuation).
Machine words (`abi_ulong` of width `w`) are modelled as `Nat` with
explicit reduction `% 2 ^ w` where overflow can occur.
-/

namespace AflQemu

/-- Modelled from the spec: `MAP_SIZE`, the length of the SharedBitmap,
comes from `config.h` which is not part of the sources here; the spec
fixes only that the bitmap has this length and indices are masked to
`MAP_SIZE - 1`.  We use AFL's standard value `1 <<< 16`, a power of two as
the masking discipline requires. -/
def MAP_SIZE : Nat := 65536

/-- `afl_inst_rms` before `afl_setup` runs: `static unsigned int
afl_inst_rms = MAP_SIZE;`. -/
def afl_inst_rms_default : Nat := MAP_SIZE

/-- The clamping `afl_setup` applies to the parsed `AFL_INST_RATIO` value
`r` (an unsigned int): `if (r > 100) r = 100; if (!r) r = 1;`. -/
def clampRate (r : Nat) : Nat :=
  let r1 := if r > 100 then 100 else r
  if r1 = 0 then 1 else r1

/-- The sampling rate `afl_setup` leaves in `afl_inst_rms`: if the
`AFL_INST_RATIO` input is absent the default `MAP_SIZE` stands, otherwise
`afl_inst_rms = MAP_SIZE * r / 100` after clamping. -/
def afl_inst_rms_of (inst_r : Option Nat) : Nat :=
  match inst_r with
  | none => afl_inst_rms_default
  | some r => MAP_SIZE * clampRate r / 100

/-- The address scrambling of `afl_maybe_log` on an `abi_ulong` of width
`w`: `cur_loc = (cur_loc >> 4) ^ (cur_loc << 8); cur_loc &= MAP_SIZE - 1;`.
The left shift wraps modulo `2 ^ w`; the right shift cannot overflow. -/
def scramble (w : Nat) (addr : Nat) : Nat :=
  ((addr >>> 4) ^^^ ((addr <<< 8) % 2 ^ w)) &&& (MAP_SIZE - 1)

/-- The state `afl_maybe_log` reads and writes: the shared bitmap pointer
`afl_area_ptr` (`none` when unattached, otherwise the byte array as a
function from index to counter value), the thread-local `prev_loc`, and
the sampling rate `afl_inst_rms`. -/
structure AflState where
  afl_area_ptr : Option (Nat → Nat)
  prev_loc : Nat
  afl_inst_rms : Nat

/-- Initial value of the thread-local `static __thread abi_ulong
prev_loc;` — zero-initialized. -/
def prev_loc_init : Nat := 0

/-- `afl_maybe_log(cur_loc)`: return unchanged when the bitmap is
unattached; scramble the address; skip when the scrambled value is not
below the sampling rate; otherwise increment the byte counter at
`cur_loc ^ prev_loc` (wrapping modulo 256, the counter being an
`unsigned char`) and set `prev_loc = cur_loc >> 1`. -/
def afl_maybe_log (w : Nat) (s : AflState) (cur_loc : Nat) : AflState :=
  match s.afl_area_ptr with
  | none => s
  | some area =>
    let loc := scramble w cur_loc
    if loc ≥ s.afl_inst_rms then s
    else
      { s with
        afl_area_ptr :=
          some (fun i => if i = loc ^^^ s.prev_loc then (area i + 1) % 256 else area i),
        prev_loc := loc >>> 1 }

/-- The bitmap byte at index `i`, `none` when the bitmap is unattached. -/
def bitmapAt (s : AflState) (i : Nat) : Option Nat :=
  s.afl_area_ptr.map (fun area => area i)

/-- `n` successive calls of `afl_maybe_log` with the same block address
`a`. -/
def afl_log_times (w a : Nat) : Nat → AflState → AflState
  | 0, s => s
  | n + 1, s => afl_log_times w a n (afl_maybe_log w s a)

/-- The protocol events the fork server can perform, in the order the
source performs them.  `drainTsl` stands for the relay-drain step
(`afl_wait_tsl(cpu, t_fd[0])`); in this source that call is commented
out, so no branch of the model emits it. -/
inductive FSEvent where
  | handshakeWrite
  | readGo
  | forkCall
  | writePid
  | drainTsl
  | waitpidCall
  | writeStatus
  | sleepCall
  deriving DecidableEq

/-- Environment for one iteration of the fork-server loop: the results
the operating system returns for each call the loop body makes. -/
structure IterEnv where
  readGoLen : Int
  forkRes : Int
  writePidLen : Int
  waitpidRes : Int
  writeStatusLen : Int
  deriving DecidableEq

/-- Outcome of one iteration of the fork-server loop. -/
inductive IterResult where
  | exitWith (code : Nat)
  | childReturn
  | continueLoop
  deriving DecidableEq

/-- One iteration of the `while (1)` loop of `afl_forkserver`, as the
trace of events performed and the outcome:
`read(FORKSRV_FD, tmp, 4) != 4` exits with code 2; `fork() < 0` exits
with code 4; in the child (`fork()` returned 0) the iteration returns to
the caller; `write(FORKSRV_FD + 1, &child_pid, 4) != 4` exits with code
5; `waitpid(child_pid, &status, 0) < 0` exits with code 6;
`write(FORKSRV_FD + 1, &status, 4) != 4` exits with code 7; otherwise
`sleep(5)` and loop.  The relay-drain call between the pid write and
`waitpid` is commented out in the source, so no `drainTsl` event is
emitted. -/
def forkserverIter (env : IterEnv) : List FSEvent × IterResult :=
  if env.readGoLen ≠ 4 then
    ([.readGo], .exitWith 2)
  else if env.forkRes < 0 then
    ([.readGo, .forkCall], .exitWith 4)
  else if env.forkRes = 0 then
    ([.readGo, .forkCall], .childReturn)
  else if env.writePidLen ≠ 4 then
    ([.readGo, .forkCall, .writePid], .exitWith 5)
  else if env.waitpidRes < 0 then
    ([.readGo, .forkCall, .writePid, .waitpidCall], .exitWith 6)
  else if env.writeStatusLen ≠ 4 then
    ([.readGo, .forkCall, .writePid, .waitpidCall, .writeStatus], .exitWith 7)
  else
    ([.readGo, .forkCall, .writePid, .waitpidCall, .writeStatus, .sleepCall], .continueLoop)

/-- Outcome of running `afl_forkserver`: returned because the bitmap is
unattached, returned because the handshake write fell short (normal
single-run fallback), exited the process, returned in the forked child,
or ran out of modelling fuel with the loop still going. -/
inductive FSOutcome where
  | noBitmap
  | handshakeFailedReturn
  | exitWith (code : Nat)
  | childReturn
  | ranOut
  deriving DecidableEq

/-- Environment for a whole `afl_forkserver` run: the handshake write
result and the per-iteration environments. -/
structure FSEnv where
  handshakeLen : Int
  iters : Nat → IterEnv

/-- The fork-server loop from iteration `k` on, with explicit fuel (the
source loop is unbounded; fuel only truncates the trace we look at). -/
def forkserverLoop (env : FSEnv) : Nat → Nat → List FSEvent × FSOutcome
  | _, 0 => ([], .ranOut)
  | k, fuel + 1 =>
    match forkserverIter (env.iters k) with
    | (tr, .exitWith c) => (tr, .exitWith c)
    | (tr, .childReturn) => (tr, .childReturn)
    | (tr, .continueLoop) =>
      (tr ++ (forkserverLoop env (k + 1) fuel).1, (forkserverLoop env (k + 1) fuel).2)

/-- `afl_forkserver`: return at once when `afl_area_ptr` is null (no
event at all); otherwise write the 4-byte handshake token and, if the
write did not complete with exactly 4 bytes, return without entering the
loop; otherwise run the loop. -/
def afl_forkserver (afl_area_ptr : Option (Nat → Nat)) (env : FSEnv) (fuel : Nat) :
    List FSEvent × FSOutcome :=
  match afl_area_ptr with
  | none => ([], .noBitmap)
  | some _ =>
    if env.handshakeLen ≠ 4 then
      ([.handshakeWrite], .handshakeFailedReturn)
    else
      (.handshakeWrite :: (forkserverLoop env 0 fuel).1, (forkserverLoop env 0 fuel).2)

/-- `struct afl_tsl`: the fixed TSLMessage record. -/
structure AflTsl where
  pc : Nat
  cs_base : Nat
  flags : Nat
  deriving DecidableEq

/-- Events the cache-relay receiver can perform: a compile request for a
message's block, and closing the channel. -/
inductive TslEvent where
  | compileRequest (t : AflTsl)
  | closeChannel
  deriving DecidableEq

/-- The read loop of `afl_wait_tsl` over the relay channel, modelled as a
list of reads, each one the byte count `read` returned together with the
message payload.  The loop breaks at the first read that returns other
than `sizeof(struct afl_tsl)`.  The body after the size check — the
`tb_htable_lookup`/`tb_gen_code` compile request — is commented out in
the source, so the loop emits no event; the result is the number of
reads performed and the (empty) event list. -/
def afl_wait_tsl_loop (size : Nat) : List (Nat × AflTsl) → Nat × List TslEvent
  | [] => (0, [])
  | (len, _t) :: rest =>
    if len ≠ size then (1, [])
    else
      ((afl_wait_tsl_loop size rest).1 + 1, (afl_wait_tsl_loop size rest).2)

/-- `afl_wait_tsl(cpu, fd)`: run the read loop until a short read, then
`close(fd)`. -/
def afl_wait_tsl (size : Nat) (chan : List (Nat × AflTsl)) : Nat × List TslEvent :=
  ((afl_wait_tsl_loop size chan).1, (afl_wait_tsl_loop size chan).2 ++ [.closeChannel])

end AflQemu

namespace AflQemu

/-- Claim C4: the coverage logger's scrambled index equals
`((addr >> 4) XOR (addr << 8)) &&& (MAP_SIZE - 1)` (the shift wrapping at
the word width), and scrambling is a deterministic pure function: equal
inputs give equal outputs across repeated calls. -/
theorem scramble_spec (w addr : Nat) :
    scramble w addr = ((addr >>> 4) ^^^ ((addr <<< 8) % 2 ^ w)) &&& (MAP_SIZE - 1) ∧
    scramble w addr = scramble w addr :=
  ⟨rfl, rfl⟩

/-- The scrambled value is below `MAP_SIZE`: the final step masks with
`MAP_SIZE - 1`. -/
theorem scramble_lt (w a : Nat) : scramble w a < MAP_SIZE := by
  have h1 : scramble w a ≤ MAP_SIZE - 1 := by
    unfold scramble
    exact Nat.and_le_right
  have h2 : 0 < MAP_SIZE := by norm_num [MAP_SIZE]
  omega

/-- A concrete attached state used by witnesses. -/
def sAttached : AflState :=
  { afl_area_ptr := some (fun _ => 0), prev_loc := 5, afl_inst_rms := MAP_SIZE }

/-- A concrete detached state used by witnesses. -/
def sDetached : AflState :=
  { afl_area_ptr := none, prev_loc := 0, afl_inst_rms := MAP_SIZE }

/-- A concrete fork-server environment in which every call succeeds. -/
def envOk : FSEnv :=
  { handshakeLen := 4, iters := fun _ => ⟨4, 7, 4, 0, 4⟩ }

/-- Claim C9: whenever the logger records (bitmap attached and the
scrambled value below the sampling rate), the thread-local `prev_loc`
afterwards equals the scrambled value shifted right by one, whatever
`prev_loc` held before the call. -/
theorem prev_loc_after_log (w : Nat) (s : AflState) (area : Nat → Nat) (a : Nat)
    (hA : s.afl_area_ptr = some area)
    (hR : scramble w a < s.afl_inst_rms) :
    (afl_maybe_log w s a).prev_loc = scramble w a >>> 1 := by
  simp [afl_maybe_log, hA, Nat.not_le.mpr hR]

/-- Witness for C9 at a concrete state with `prev_loc = 5`. -/
theorem prev_loc_after_log_witness :
    (afl_maybe_log 64 sAttached 0).prev_loc = scramble 64 0 >>> 1 :=
  prev_loc_after_log 64 sAttached (fun _ => 0) 0 rfl (by decide)

/-- Claim C7: with the SharedBitmap unattached the coverage logger
returns its state unchanged (neither the bitmap nor `prev_loc` moves) and
the fork-server controller returns at once with an empty event trace —
no handshake write, no descriptor I/O. -/
theorem unattached_noop (w a : Nat) (s : AflState) (env : FSEnv) (fuel : Nat)
    (h : s.afl_area_ptr = none) :
    afl_maybe_log w s a = s ∧
    afl_forkserver s.afl_area_ptr env fuel = ([], .noBitmap) := by
  constructor
  · simp [afl_maybe_log, h]
  · simp [afl_forkserver, h]

/-- Witness for C7 at a concrete detached state. -/
theorem unattached_noop_witness :
    afl_maybe_log 64 sDetached 3 = sDetached ∧
    afl_forkserver sDetached.afl_area_ptr envOk 1 = ([], .noBitmap) := by
  have h := unattached_noop 64 3 sDetached envOk 1 rfl
  exact h

/-- Claim C6: if the initial 4-byte handshake write completes with
anything other than exactly 4 bytes, the fork-server returns without
entering the fork loop: the run performs only the handshake write — no
go-signal read, no fork — and the outcome is a return, not a process
exit. -/
theorem handshake_short_returns (area : Nat → Nat) (env : FSEnv) (fuel : Nat)
    (h : env.handshakeLen ≠ 4) :
    afl_forkserver (some area) env fuel = ([.handshakeWrite], .handshakeFailedReturn) ∧
    FSEvent.readGo ∉ (afl_forkserver (some area) env fuel).1 ∧
    FSEvent.forkCall ∉ (afl_forkserver (some area) env fuel).1 ∧
    ∀ c, (afl_forkserver (some area) env fuel).2 ≠ .exitWith c := by
  have heq : afl_forkserver (some area) env fuel = ([.handshakeWrite], .handshakeFailedReturn) := by
    simp [afl_forkserver, h]
  refine ⟨heq, ?_, ?_, ?_⟩ <;> simp [heq]

/-- Witness for C6 with a 0-byte handshake write. -/
theorem handshake_short_returns_witness :
    afl_forkserver (some (fun _ => 0)) ⟨0, fun _ => ⟨4, 7, 4, 0, 4⟩⟩ 5 =
      ([.handshakeWrite], .handshakeFailedReturn) :=
  (handshake_short_returns (fun _ => 0) ⟨0, fun _ => ⟨4, 7, 4, 0, 4⟩⟩ 5 (by decide)).1

/-- Claim C5: each protocol-framing failure in the fork-server loop — a
short go-signal read, fork failure, a short pid write, waitpid failure,
and a short status write — ends the iteration with an immediate process
exit, and the five exit codes (2, 4, 5, 6, 7) are pairwise distinct and
nonzero, the go-signal short read using the designated "parent dead"
code 2. -/
theorem exit_codes_distinct (env : IterEnv) :
    (env.readGoLen ≠ 4 → forkserverIter env = ([.readGo], .exitWith 2)) ∧
    (env.readGoLen = 4 → env.forkRes < 0 →
      forkserverIter env = ([.readGo, .forkCall], .exitWith 4)) ∧
    (env.readGoLen = 4 → 0 < env.forkRes → env.writePidLen ≠ 4 →
      forkserverIter env = ([.readGo, .forkCall, .writePid], .exitWith 5)) ∧
    (env.readGoLen = 4 → 0 < env.forkRes → env.writePidLen = 4 → env.waitpidRes < 0 →
      forkserverIter env = ([.readGo, .forkCall, .writePid, .waitpidCall], .exitWith 6)) ∧
    (env.readGoLen = 4 → 0 < env.forkRes → env.writePidLen = 4 → 0 ≤ env.waitpidRes →
      env.writeStatusLen ≠ 4 →
      forkserverIter env =
        ([.readGo, .forkCall, .writePid, .waitpidCall, .writeStatus], .exitWith 7)) ∧
    List.Pairwise (fun a b => a ≠ b) [2, 4, 5, 6, 7] ∧
    (∀ c ∈ [2, 4, 5, 6, 7], c ≠ 0) := by
  refine ⟨?_, ?_, ?_, ?_, ?_, by decide, by decide⟩
  · intro h1
    simp [forkserverIter, h1]
  · intro h1 h2
    simp [forkserverIter, h1, h2]
  · intro h1 h2 h3
    have hn1 : ¬ env.forkRes < 0 := by omega
    have hn2 : ¬ env.forkRes = 0 := by omega
    simp [forkserverIter, h1, h3, hn1, hn2]
  · intro h1 h2 h3 h4
    have hn1 : ¬ env.forkRes < 0 := by omega
    have hn2 : ¬ env.forkRes = 0 := by omega
    simp [forkserverIter, h1, h3, h4, hn1, hn2]
  · intro h1 h2 h3 h4 h5
    have hn1 : ¬ env.forkRes < 0 := by omega
    have hn2 : ¬ env.forkRes = 0 := by omega
    have hn3 : ¬ env.waitpidRes < 0 := by omega
    simp [forkserverIter, h1, h3, h5, hn1, hn2, hn3]

/-- Witness for C5: a short go-signal read exits with the "parent dead"
code 2. -/
theorem exit_codes_distinct_witness :
    forkserverIter ⟨0, 0, 0, 0, 0⟩ = ([.readGo], .exitWith 2) :=
  (exit_codes_distinct ⟨0, 0, 0, 0, 0⟩).1 (by decide)

/-- No branch of the loop body performs the relay-drain step. -/
theorem drainTsl_not_mem_iter (env : IterEnv) :
    FSEvent.drainTsl ∉ (forkserverIter env).1 := by
  unfold forkserverIter
  repeat' split
  all_goals decide

/-- A fully successful iteration's trace: the pid write is immediately
followed by the waitpid call. -/
theorem forkserverIter_success_shape (env : IterEnv)
    (h : (forkserverIter env).2 = .continueLoop) :
    (forkserverIter env).1 =
      [.readGo, .forkCall, .writePid, .waitpidCall, .writeStatus, .sleepCall] := by
  unfold forkserverIter at h ⊢
  split_ifs at h ⊢
  all_goals simp_all

/-- The relay-drain step never appears in any run of the loop. -/
theorem drainTsl_not_mem_loop (env : FSEnv) :
    ∀ (fuel k : Nat), FSEvent.drainTsl ∉ (forkserverLoop env k fuel).1 := by
  intro fuel
  induction fuel with
  | zero =>
    intro k
    simp [forkserverLoop]
  | succ n ih =>
    intro k
    have hi := drainTsl_not_mem_iter (env.iters k)
    unfold forkserverLoop
    rcases hstep : forkserverIter (env.iters k) with ⟨tr, res⟩
    rw [hstep] at hi
    cases res with
    | exitWith c => simpa using hi
    | childReturn => simpa using hi
    | continueLoop =>
      have hr := ih (k + 1)
      simp_all

/-- Claim C1 counterexample: with every system call succeeding, the loop
iteration performs the pid write and then the waitpid call with no
relay-drain step between them — indeed no relay-drain step occurs at
all, refuting the claim that the drain runs between the two in every
iteration. -/
theorem no_drain_counterexample :
    (forkserverIter ⟨4, 7, 4, 0, 4⟩).1 =
      [.readGo, .forkCall, .writePid, .waitpidCall, .writeStatus, .sleepCall] ∧
    FSEvent.drainTsl ∉ (forkserverIter ⟨4, 7, 4, 0, 4⟩).1 := by
  decide

/-- Claim C1 (amended): after writing the new child's pid to the
controller the parent proceeds directly to waiting for the child's
termination status; the cache-relay drain step is disabled and runs in
no iteration of the fork-server loop. -/
theorem no_drain_between_pid_and_wait (env : FSEnv) (k fuel : Nat) :
    FSEvent.drainTsl ∉ (forkserverLoop env k fuel).1 ∧
    ((forkserverIter (env.iters k)).2 = .continueLoop →
      (forkserverIter (env.iters k)).1 =
        [.readGo, .forkCall, .writePid, .waitpidCall, .writeStatus, .sleepCall]) :=
  ⟨drainTsl_not_mem_loop env fuel k, forkserverIter_success_shape (env.iters k)⟩

/-- Witness for C1 (amended) on an all-success environment. -/
theorem no_drain_between_pid_and_wait_witness :
    FSEvent.drainTsl ∉ (forkserverLoop envOk 0 3).1 ∧
    (forkserverIter (envOk.iters 0)).1 =
      [.readGo, .forkCall, .writePid, .waitpidCall, .writeStatus, .sleepCall] :=
  ⟨(no_drain_between_pid_and_wait envOk 0 3).1,
   (no_drain_between_pid_and_wait envOk 0 3).2 (by decide)⟩

/-- The read loop of `afl_wait_tsl` emits no event whatsoever. -/
theorem afl_wait_tsl_loop_events (size : Nat) :
    ∀ chan : List (Nat × AflTsl), (afl_wait_tsl_loop size chan).2 = [] := by
  intro chan
  induction chan with
  | nil => simp [afl_wait_tsl_loop]
  | cons p rest ih =>
    rcases p with ⟨len, t⟩
    unfold afl_wait_tsl_loop
    split
    · rfl
    · simpa using ih

/-- Read count of the loop: `k` full-size reads followed by a short read
make `k + 1` reads in all. -/
theorem afl_wait_tsl_loop_count (size : Nat) :
    ∀ (pre : List (Nat × AflTsl)) (len : Nat) (t : AflTsl) (rest : List (Nat × AflTsl)),
      (∀ p ∈ pre, p.1 = size) → len ≠ size →
      (afl_wait_tsl_loop size (pre ++ (len, t) :: rest)).1 = pre.length + 1 := by
  intro pre
  induction pre with
  | nil =>
    intro len t rest _ hlen
    simp [afl_wait_tsl_loop, hlen]
  | cons p pre ih =>
    intro len t rest hpre hlen
    rcases p with ⟨l, m⟩
    have hl : l = size := hpre (l, m) (List.mem_cons_self _ _)
    have hrec := ih len t rest (fun q hq => hpre q (List.mem_cons_of_mem _ hq)) hlen
    simp [afl_wait_tsl_loop, hl, hrec]

/-- Claim C2 counterexample: the channel delivers one full-size
TSLMessage and then a short read; the receiver consumes both reads and
closes the channel, but emits no compile request for the message it
received — refuting the claim that each received message triggers a
compilation request. -/
theorem no_compile_counterexample :
    (afl_wait_tsl 16 [(16, ⟨1, 2, 3⟩), (0, ⟨0, 0, 0⟩)]).1 = 2 ∧
    (afl_wait_tsl 16 [(16, ⟨1, 2, 3⟩), (0, ⟨0, 0, 0⟩)]).2 = [.closeChannel] ∧
    TslEvent.compileRequest ⟨1, 2, 3⟩ ∉ (afl_wait_tsl 16 [(16, ⟨1, 2, 3⟩), (0, ⟨0, 0, 0⟩)]).2 := by
  decide

/-- Claim C2 (amended): the receiver keeps reading until a read returns
other than the exact message size and then closes the channel, but it
discards every message without asking the translation engine to compile
anything: the event trace of every run is exactly the channel close, and
`k` full reads followed by a short read make `k + 1` reads. -/
theorem wait_tsl_discards (size : Nat) (pre : List (Nat × AflTsl)) (len : Nat) (t : AflTsl)
    (rest : List (Nat × AflTsl))
    (hpre : ∀ p ∈ pre, p.1 = size) (hlen : len ≠ size) :
    (∀ (chan : List (Nat × AflTsl)) (m : AflTsl),
      (afl_wait_tsl size chan).2 = [.closeChannel] ∧
      TslEvent.compileRequest m ∉ (afl_wait_tsl size chan).2) ∧
    (afl_wait_tsl size (pre ++ (len, t) :: rest)).1 = pre.length + 1 := by
  constructor
  · intro chan m
    have he : (afl_wait_tsl size chan).2 = [.closeChannel] := by
      unfold afl_wait_tsl
      rw [afl_wait_tsl_loop_events]
      rfl
    refine ⟨he, ?_⟩
    rw [he]
    simp
  · unfold afl_wait_tsl
    exact afl_wait_tsl_loop_count size pre len t rest hpre hlen

/-- Witness for C2 (amended): three full messages then a short read give
four reads and a bare channel close. -/
theorem wait_tsl_discards_witness :
    (afl_wait_tsl 16 [(16, ⟨1, 1, 1⟩), (16, ⟨2, 2, 2⟩), (16, ⟨3, 3, 3⟩)] ).2 = [.closeChannel] ∧
    (afl_wait_tsl 16
      ([(16, ⟨1, 1, 1⟩), (16, ⟨2, 2, 2⟩), (16, ⟨3, 3, 3⟩)] ++ (0, ⟨0, 0, 0⟩) :: [])).1 = 4 :=
  ⟨((wait_tsl_discards 16 [(16, ⟨1, 1, 1⟩), (16, ⟨2, 2, 2⟩), (16, ⟨3, 3, 3⟩)] 0 ⟨0, 0, 0⟩ []
      (by decide) (by decide)).1
      [(16, ⟨1, 1, 1⟩), (16, ⟨2, 2, 2⟩), (16, ⟨3, 3, 3⟩)] ⟨0, 0, 0⟩).1,
   (wait_tsl_discards 16 [(16, ⟨1, 1, 1⟩), (16, ⟨2, 2, 2⟩), (16, ⟨3, 3, 3⟩)] 0 ⟨0, 0, 0⟩ []
      (by decide) (by decide)).2⟩

/-- When the logger records (attached, below the sampling rate), the
call reduces to the single-byte increment and the `prev_loc` update. -/
theorem afl_maybe_log_record (w a : Nat) (s : AflState) (area : Nat → Nat)
    (hA : s.afl_area_ptr = some area)
    (hR : scramble w a < s.afl_inst_rms) :
    afl_maybe_log w s a =
      { afl_area_ptr := some (fun i =>
          if i = scramble w a ^^^ s.prev_loc then (area i + 1) % 256 else area i),
        prev_loc := scramble w a >>> 1,
        afl_inst_rms := s.afl_inst_rms } := by
  cases s with
  | mk p pl rms =>
    simp only [afl_maybe_log]
    cases hA
    simp [Nat.not_le.mpr hR]

/-- When the scrambled value is not below the sampling rate, the logger
skips: the state is unchanged. -/
theorem afl_maybe_log_skip (w a : Nat) (s : AflState)
    (hR : s.afl_inst_rms ≤ scramble w a) :
    afl_maybe_log w s a = s := by
  cases hA : s.afl_area_ptr with
  | none => simp [afl_maybe_log, hA]
  | some area => simp [afl_maybe_log, hA, hR]

/-- A byte increment wrapped modulo 256 never fixes the byte. -/
theorem succ_mod_256_ne (x : Nat) : (x + 1) % 256 ≠ x := by
  omega

/-- Claim C3: with the bitmap attached, the logger records a scrambled
address `s` (changes the state) iff `s` is below the sampling rate; the
rate derived from ratio 0 equals the rate derived from ratio 1, ratios
above 100 clamp to 100 giving `MAP_SIZE`, in-range ratios give
`MAP_SIZE * ratio / 100`, the absent-ratio default is `MAP_SIZE`, and
every scrambled address is below `MAP_SIZE`, so rate `MAP_SIZE` records
every scrambled address. -/
theorem sampling_iff (w a : Nat) (s : AflState) (area : Nat → Nat) (r : Nat)
    (hA : s.afl_area_ptr = some area) :
    (afl_maybe_log w s a ≠ s ↔ scramble w a < s.afl_inst_rms) ∧
    afl_inst_rms_of (some 0) = afl_inst_rms_of (some 1) ∧
    (100 < r → afl_inst_rms_of (some r) = MAP_SIZE) ∧
    (0 < r → r ≤ 100 → afl_inst_rms_of (some r) = MAP_SIZE * r / 100) ∧
    afl_inst_rms_of none = MAP_SIZE ∧
    scramble w a < MAP_SIZE := by
  refine ⟨⟨?_, ?_⟩, rfl, ?_, ?_, rfl, scramble_lt w a⟩
  · intro hne
    by_contra hge
    exact hne (afl_maybe_log_skip w a s (Nat.not_lt.mp hge))
  · intro hlt heq
    rw [afl_maybe_log_record w a s area hA hlt] at heq
    have harea := congrArg AflState.afl_area_ptr heq
    rw [hA] at harea
    simp only [Option.some.injEq] at harea
    have hpt := congrFun harea (scramble w a ^^^ s.prev_loc)
    simp only [if_pos rfl] at hpt
    exact succ_mod_256_ne _ hpt
  · intro h1
    have h2 : ¬ (if r > 100 then 100 else r) = 0 := by
      split <;> omega
    simp only [afl_inst_rms_of, clampRate, if_pos h1, MAP_SIZE]
    norm_num
  · intro h1 h2
    have h3 : ¬ r > 100 := by omega
    have h4 : ¬ r = 0 := by omega
    simp [afl_inst_rms_of, clampRate, h3, h4]

/-- Witness for C3: a recording call changes the state, and ratio 50
gives half the map. -/
theorem sampling_iff_witness :
    afl_maybe_log 64 sAttached 0 ≠ sAttached ∧
    afl_inst_rms_of (some 50) = MAP_SIZE * 50 / 100 :=
  ⟨(sampling_iff 64 0 sAttached (fun _ => 0) 50 rfl).1.mpr (by decide),
   (sampling_iff 64 0 sAttached (fun _ => 0) 50 rfl).2.2.2.1 (by decide) (by decide)⟩

/-- A concrete attached state whose `prev_loc` is already aligned with
address 0 (`scramble 64 0 >>> 1 = 0`), used by the C8 witness. -/
def sAligned : AflState :=
  { afl_area_ptr := some (fun _ => 0), prev_loc := 0, afl_inst_rms := MAP_SIZE }

/-- Iterating the logger on one fixed address from an aligned `prev_loc`
adds `n` to the byte at the repeated edge's index, modulo 256. -/
theorem afl_log_times_aligned (w a : Nat) :
    ∀ (n : Nat) (s : AflState) (area : Nat → Nat),
      s.afl_area_ptr = some area →
      s.prev_loc = scramble w a >>> 1 →
      scramble w a < s.afl_inst_rms →
      area (scramble w a ^^^ (scramble w a >>> 1)) < 256 →
      bitmapAt (afl_log_times w a n s) (scramble w a ^^^ (scramble w a >>> 1)) =
        some ((area (scramble w a ^^^ (scramble w a >>> 1)) + n) % 256) := by
  intro n
  induction n with
  | zero =>
    intro s area hA _ _ hlt
    simp [afl_log_times, bitmapAt, hA, Nat.mod_eq_of_lt hlt]
  | succ n ih =>
    intro s area hA hP hR hlt
    have hstep := afl_maybe_log_record w a s area hA hR
    have hnext :
        afl_log_times w a (n + 1) s = afl_log_times w a n (afl_maybe_log w s a) := rfl
    have h256 : (if (scramble w a ^^^ (scramble w a >>> 1)) = scramble w a ^^^ s.prev_loc
        then (area (scramble w a ^^^ (scramble w a >>> 1)) + 1) % 256
        else area (scramble w a ^^^ (scramble w a >>> 1))) < 256 := by
      rw [hP]
      simp
      omega
    have hih := ih
      { afl_area_ptr := some (fun i =>
          if i = scramble w a ^^^ s.prev_loc then (area i + 1) % 256 else area i),
        prev_loc := scramble w a >>> 1,
        afl_inst_rms := s.afl_inst_rms }
      (fun i => if i = scramble w a ^^^ s.prev_loc then (area i + 1) % 256 else area i)
      rfl rfl hR h256
    rw [hnext, hstep, hih, hP]
    simp only []
    simp only [if_true]
    congr 1
    omega

/-- Claim C8: each recording of an edge increments its byte-wide bitmap
counter with wrap-around modulo 256 and no saturation, so 256 recordings
of the identical edge (same address logged repeatedly from an aligned
`prev_loc`) starting from a zero counter leave that counter equal to
0. -/
theorem counter_wraps (w a : Nat) (s : AflState) (area : Nat → Nat)
    (hA : s.afl_area_ptr = some area)
    (hP : s.prev_loc = scramble w a >>> 1)
    (hR : scramble w a < s.afl_inst_rms)
    (h0 : area (scramble w a ^^^ (scramble w a >>> 1)) = 0) :
    bitmapAt (afl_maybe_log w s a) (scramble w a ^^^ (scramble w a >>> 1)) =
      some ((area (scramble w a ^^^ (scramble w a >>> 1)) + 1) % 256) ∧
    bitmapAt (afl_log_times w a 256 s) (scramble w a ^^^ (scramble w a >>> 1)) = some 0 := by
  constructor
  · exact afl_log_times_aligned w a 1 s area hA hP hR (by omega)
  · have h256 := afl_log_times_aligned w a 256 s area hA hP hR (by omega)
    rw [h256, h0]

/-- Witness for C8: 256 recordings of address 0 from the aligned state
leave the edge counter at 0. -/
theorem counter_wraps_witness :
    bitmapAt (afl_log_times 64 0 256 sAligned) (scramble 64 0 ^^^ (scramble 64 0 >>> 1)) =
      some 0 :=
  (counter_wraps 64 0 sAligned (fun _ => 0) rfl (by decide) (by decide) rfl).2

/-- Claim C10: `MAP_SIZE` is a power of two, the initial thread-local
`prev_loc` is in bounds, every call of the logger keeps `prev_loc` below
`MAP_SIZE`, and every call writes at most one bitmap byte, at an index
below `MAP_SIZE` — every other index is untouched. -/
theorem bitmap_index_in_bounds (w a : Nat) (s : AflState)
    (hP : s.prev_loc < MAP_SIZE) :
    MAP_SIZE = 2 ^ 16 ∧
    prev_loc_init < MAP_SIZE ∧
    (afl_maybe_log w s a).prev_loc < MAP_SIZE ∧
    ∃ e, e < MAP_SIZE ∧ ∀ i, i ≠ e → bitmapAt (afl_maybe_log w s a) i = bitmapAt s i := by
  refine ⟨rfl, by norm_num [prev_loc_init, MAP_SIZE], ?_, ?_⟩
  · cases hA : s.afl_area_ptr with
    | none =>
      have : afl_maybe_log w s a = s := by simp [afl_maybe_log, hA]
      rw [this]
      exact hP
    | some area =>
      by_cases hR : scramble w a < s.afl_inst_rms
      · rw [afl_maybe_log_record w a s area hA hR]
        have h1 : scramble w a >>> 1 ≤ scramble w a := by
          rw [Nat.shiftRight_eq_div_pow]
          exact Nat.div_le_self _ _
        exact Nat.lt_of_le_of_lt h1 (scramble_lt w a)
      · rw [afl_maybe_log_skip w a s (Nat.not_lt.mp hR)]
        exact hP
  · cases hA : s.afl_area_ptr with
    | none =>
      refine ⟨0, by norm_num [MAP_SIZE], fun i _ => ?_⟩
      have : afl_maybe_log w s a = s := by simp [afl_maybe_log, hA]
      rw [this]
    | some area =>
      by_cases hR : scramble w a < s.afl_inst_rms
      · refine ⟨scramble w a ^^^ s.prev_loc, ?_, ?_⟩
        · have h16 : MAP_SIZE = 2 ^ 16 := rfl
          rw [h16]
          exact Nat.xor_lt_two_pow (h16 ▸ scramble_lt w a) (h16 ▸ hP)
        · intro i hi
          rw [afl_maybe_log_record w a s area hA hR]
          simp [bitmapAt, hA, hi]
      · rw [afl_maybe_log_skip w a s (Nat.not_lt.mp hR)]
        exact ⟨0, by norm_num [MAP_SIZE], fun i _ => rfl⟩

/-- Witness for C10 at a concrete attached state. -/
theorem bitmap_index_in_bounds_witness :
    (afl_maybe_log 64 sAttached 0).prev_loc < MAP_SIZE :=
  (bitmap_index_in_bounds 64 0 sAttached (by decide)).2.2.1

end AflQemu
